import Mathlib

/-!
Verification of the VoiceFlow dictation core against its specification.

Code-level definitions are shallow embeddings of the TypeScript sources
(src/pages/Popup.tsx, src/components/StatsHeader.tsx); JavaScript numbers
are modelled as rationals (`ℚ`), with non-finite values represented
explicitly where the code branches on finiteness.  The Dictation
Orchestrator and the Model Store are not part of the shipped UI sources;
they are modelled from the specification text, and each such definition
says so in its doc comment.
-/

namespace VoiceFlow

/-! ## JavaScript number model -/

/-- A JavaScript `number` as it matters to the code under verification:
either a finite value (modelled as a rational) or one of the three
non-finite values. -/
inductive JsNum where
  | nan
  | posInf
  | negInf
  | fin (q : ℚ)
deriving DecidableEq

/-- `isFinite(x)` on the JavaScript number model. -/
def jsIsFinite : JsNum → Bool
  | .fin _ => true
  | _ => false

/-- The JavaScript comparison `x <= 0` (false on NaN). -/
def jsLeZero : JsNum → Bool
  | .nan => false
  | .posInf => false
  | .negInf => true
  | .fin q => decide (q ≤ 0)

/-- JavaScript truncation toward zero of a finite value. -/
def jsTrunc (q : ℚ) : ℤ :=
  if 0 ≤ q then ⌊q⌋ else ⌈q⌉

/-- The JavaScript remainder `a % b` for finite operands (sign follows
the dividend, computed from truncating division). -/
def jsMod (a b : ℚ) : ℚ :=
  a - b * (jsTrunc (a / b) : ℚ)

/-! ## StatsHeader.tsx — download progress presentation -/

/-- Payload of a `download-progress` event (spec section 6 event
vocabulary, consumed by `ModelDownloadProgress`). -/
structure DownloadProgress where
  downloadedBytes : ℚ
  totalBytes : ℚ
  percent : ℚ
  speedBps : ℚ
  etaSeconds : JsNum
deriving DecidableEq

/-- Payload of a `download-complete` event. -/
structure DownloadComplete where
  success : Bool
  cancelled : Bool
  error : Option String
deriving DecidableEq

/-- `String.padStart(2, "0")` for the strings produced by rendering a
number (never empty). -/
def padStart2 (s : String) : String :=
  if 2 ≤ s.length then s else "0" ++ s

/-- Embedding of `formatEta` from StatsHeader.tsx:
`if (seconds <= 0 || !isFinite(seconds)) return "--:--";` then
`${Math.floor(seconds / 60)}:${Math.floor(seconds % 60).toString().padStart(2, "0")}`. -/
def formatEta (seconds : JsNum) : String :=
  if jsLeZero seconds || !(jsIsFinite seconds) then "--:--"
  else
    match seconds with
    | .fin q => toString ⌊q / 60⌋ ++ ":" ++ padStart2 (toString ⌊jsMod q 60⌋)
    | _ => "--:--"

/-- Embedding of the render guard in `ModelDownloadProgress`: the
speed/ETA row is emitted only under `progress && progress.speedBps > 0`. -/
def showsSpeedEtaRow : Option DownloadProgress → Bool
  | none => false
  | some p => decide (0 < p.speedBps)

/-! ## Popup.tsx — spectrum wave geometry -/

def N_BANDS : ℕ := 20
def SVG_W : ℚ := 364
def SVG_H : ℚ := 68
/-- Center Y of the SVG canvas, `SVG_H / 2`. -/
def CY : ℚ := SVG_H / 2
/-- Max wave excursion in pixels, `CY * 0.96`. -/
def MAX_H : ℚ := CY * 0.96

/-- The idle-animation blend computed per band in `Popup`
(three sines recombined into `0..1`); `sinF` stands for `Math.sin` and
`piQ` for `Math.PI`, abstracted because the embedding uses exact
rationals. -/
def idleBlend (sinF : ℚ → ℚ) (piQ : ℚ) (animTime : ℚ) (i : ℕ) : ℚ :=
  let pos : ℚ := (i : ℚ) / ((N_BANDS : ℚ) - 1)
  (sinF (animTime * 2.8 + pos * piQ * 3.0) * 0.35 +
   sinF (animTime * 1.5 + pos * piQ * 5.5 + 1.3) * 0.40 +
   sinF (animTime * 4.1 + pos * piQ * 2.2 - 0.9) * 0.25) *
    0.5 + 0.5

/-- The idle floor, `idle * 0.14`. -/
def idleFloor (sinF : ℚ → ℚ) (piQ : ℚ) (animTime : ℚ) (i : ℕ) : ℚ :=
  idleBlend sinF piQ animTime i * 0.14

/-- A displayed band value: `Math.max(idleFloor, v)` over the received
band value `v`. -/
def bandValue (sinF : ℚ → ℚ) (piQ : ℚ) (animTime : ℚ) (i : ℕ) (v : ℚ) : ℚ :=
  max (idleFloor sinF piQ animTime i) v

/-- Upper wave point ordinate: `CY - v * MAX_H` at a displayed band. -/
def upperY (sinF : ℚ → ℚ) (piQ : ℚ) (animTime : ℚ) (i : ℕ) (v : ℚ) : ℚ :=
  CY - bandValue sinF piQ animTime i v * MAX_H

/-- Lower wave point ordinate: `CY + v * MAX_H` at a displayed band. -/
def lowerY (sinF : ℚ → ℚ) (piQ : ℚ) (animTime : ℚ) (i : ℕ) (v : ℚ) : ℚ :=
  CY + bandValue sinF piQ animTime i v * MAX_H

/-! ## Popup.tsx — Catmull-Rom path construction -/

/-- `x.toFixed(1)` for a nonnegative value: round to the nearest tenth
(ties to the larger value, as the ECMAScript algorithm picks the larger
candidate). -/
def toFixed1Pos (x : ℚ) : String :=
  let n : ℤ := ⌊x * 10 + 1 / 2⌋
  toString (n / 10) ++ "." ++ toString (n % 10)

/-- `x.toFixed(1)` on the rational model of a JavaScript number. -/
def toFixed1 (q : ℚ) : String :=
  if q < 0 then "-" ++ toFixed1Pos (-q) else toFixed1Pos q

/-- The move-to command text `M ${x.toFixed(1)} ${y.toFixed(1)}`. -/
def moveToStr (p : ℚ × ℚ) : String :=
  "M " ++ toFixed1 p.1 ++ " " ++ toFixed1 p.2

/-- One iteration of the loop body of `crPath`: the cubic-bezier command
appended for index `i` (note `pts.getD (i - 1)` realizes
`Math.max(0, i - 1)` through truncated subtraction on `ℕ`). -/
def bezierSeg (pts : List (ℚ × ℚ)) (i : ℕ) : String :=
  let n := pts.length
  let p0 := pts.getD (i - 1) (0, 0)
  let p1 := pts.getD i (0, 0)
  let p2 := pts.getD (i + 1) (0, 0)
  let p3 := pts.getD (min (n - 1) (i + 2)) (0, 0)
  let cp1x := p1.1 + (p2.1 - p0.1) / 6
  let cp1y := p1.2 + (p2.2 - p0.2) / 6
  let cp2x := p2.1 - (p3.1 - p1.1) / 6
  let cp2y := p2.2 - (p3.2 - p1.2) / 6
  " C " ++ toFixed1 cp1x ++ " " ++ toFixed1 cp1y ++ ", " ++
    toFixed1 cp2x ++ " " ++ toFixed1 cp2y ++ ", " ++
    toFixed1 p2.1 ++ " " ++ toFixed1 p2.2

/-- Embedding of `crPath`: empty for fewer than two points, else a
move-to followed by the loop over `i = 0 .. n-2` appending bezier
commands. -/
def crPath (pts : List (ℚ × ℚ)) : String :=
  if pts.length < 2 then ""
  else
    (List.range (pts.length - 1)).foldl (fun d i => d ++ bezierSeg pts i)
      (moveToStr (pts.getD 0 (0, 0)))

/-- Character class of the regex `[\d. ]` used to strip the move-to
command in `areaPath`. -/
def isMoveBodyChar (c : Char) : Bool :=
  c.isDigit || c == '.' || c == ' '

/-- Embedding of `.replace(/^M[\d. ]+/, "")`: drop a leading `M`
followed by a nonempty greedy run of digits, dots and spaces; otherwise
return the string unchanged. -/
def dropMoveCmd (s : String) : String :=
  match s.data with
  | 'M' :: c :: rest =>
    if isMoveBodyChar c then String.mk (List.dropWhile isMoveBodyChar (c :: rest))
    else s
  | _ => s

/-- Embedding of `areaPath`: upper wave, a line-to the first point of
the reversed lower wave, the reversed lower curve with its move-to
stripped, and a closing `Z`. -/
def areaPath (upper lower : List (ℚ × ℚ)) : String :=
  let rev := lower.reverse
  let r0 := rev.getD 0 (0, 0)
  crPath upper ++ " L " ++ toFixed1 r0.1 ++ " " ++ toFixed1 r0.2 ++
    dropMoveCmd (crPath rev) ++ " Z"

/-- The list of bezier commands of `crPath` seen as a list (one entry
per loop iteration), used to state structural properties of the path. -/
def bezierSegs (pts : List (ℚ × ℚ)) : List String :=
  (List.range (pts.length - 1)).map (bezierSeg pts)

/-- Concatenation of a list of strings. -/
def concatStrs : List String → String
  | [] => ""
  | s :: r => s ++ concatStrs r

/-! ## Dictation Orchestrator (spec section 4.1)

The orchestrator itself is not among the shipped UI sources; the
definitions below are modelled from the specification's state machine. -/

/-- Modelled from the spec: the session states of section 4.1,
`Idle -> Recording -> Transcribing -> Completed|Failed|Cancelled`
(`Idle` is represented by the absence of a current session). -/
inductive SessState where
  | Recording
  | Transcribing
  | Completed
  | Failed
  | Cancelled
deriving DecidableEq

/-- Whether a session state is terminal. -/
def SessState.isTerminal : SessState → Bool
  | .Completed => true
  | .Failed => true
  | .Cancelled => true
  | _ => false

/-- Modelled from the spec: the `DictationSession` record of section 3
(one hotkey-press-to-result cycle). -/
structure DictationSession where
  id : ℕ
  state : SessState
  startedAt : ℕ
  audioBuffer : List ℚ
  amplitudeHistory : List ℚ
  resultText : Option String
  failure : Option String
deriving DecidableEq

/-- Modelled from the spec: orchestrator configuration — the
minimum-recording-duration threshold of section 4.1 (a configuration
constant per section 9). -/
structure OrchConfig where
  minDurationMs : ℕ

/-- Modelled from the spec: the inbound events funneled through the
orchestrator (section 5): hotkey chord edges (with timestamps), audio
frames, inference completion or failure, abnormal termination. -/
inductive OEvent where
  | chordDown (t : ℕ)
  | frame (amp : ℚ)
  | chordUp (t : ℕ)
  | inferOk (text : String)
  | inferErr (cause : String)
  | abortSession (cause : String)
deriving DecidableEq

/-- Modelled from the spec: the orchestrator's emitted outputs (section
6 event vocabulary plus the transcribe invocation and history
insertion). -/
inductive OOut where
  | popupState (s : String)
  | amplitude (amp : ℚ)
  | invokeTranscribe (buffer : List ℚ)
  | insertHistory (text : String) (wordCount charCount : ℕ)
  | resultOut (text : String)
  | errorOut (cause : String)
deriving DecidableEq

/-- Modelled from the spec: orchestrator state — the exclusively owned
current session if any (`none` is `Idle`), the archive of terminal
sessions, the history sink contents, and a fresh-id counter. -/
structure OrchState where
  current : Option DictationSession
  archive : List DictationSession
  history : List (String × ℕ × ℕ)
  nextId : ℕ
deriving DecidableEq

/-- The initial orchestrator state: `Idle`, nothing archived. -/
def initOrch : OrchState := ⟨none, [], [], 0⟩

/-- Number of words of a transcription, for the history insertion. -/
def wordCount (s : String) : ℕ :=
  ((s.split (· == ' ')).filter (fun w => !(w == ""))).length

/-- Modelled from the spec: one transition of the session state machine
of section 4.1.  Chord-down in `Idle` starts a `Recording` session;
chord-down while non-`Idle` is a complete no-op; a frame appends to the
buffer and history while `Recording`; chord-up below the minimum
duration cancels and discards the buffer with no inference, otherwise
moves to `Transcribing` and invokes the engine; inference success
completes the session and inserts history; inference failure or
abnormal termination fails the session. -/
def orchStep (cfg : OrchConfig) (s : OrchState) (e : OEvent) : OrchState × List OOut :=
  match e, s.current with
  | .chordDown t, none =>
      ({ s with
          current := some
            { id := s.nextId, state := .Recording, startedAt := t,
              audioBuffer := [], amplitudeHistory := [],
              resultText := none, failure := none },
          nextId := s.nextId + 1 },
       [.popupState "recording"])
  | .chordDown _, some _ => (s, [])
  | .frame a, some sess =>
      if sess.state = .Recording then
        ({ s with
            current := some
              { sess with
                  audioBuffer := sess.audioBuffer ++ [a],
                  amplitudeHistory := sess.amplitudeHistory ++ [a] } },
         [.amplitude a])
      else (s, [])
  | .frame _, none => (s, [])
  | .chordUp t, some sess =>
      if sess.state = .Recording then
        if t - sess.startedAt < cfg.minDurationMs then
          ({ s with
              current := none,
              archive := s.archive ++ [{ sess with state := .Cancelled, audioBuffer := [] }] },
           [.popupState "idle"])
        else
          ({ s with current := some { sess with state := .Transcribing } },
           [.popupState "processing", .invokeTranscribe sess.audioBuffer])
      else (s, [])
  | .chordUp _, none => (s, [])
  | .inferOk txt, some sess =>
      if sess.state = .Transcribing then
        ({ s with
            current := none,
            archive := s.archive ++ [{ sess with state := .Completed, resultText := some txt }],
            history := s.history ++ [(txt, wordCount txt, txt.length)] },
         [.resultOut txt, .insertHistory txt (wordCount txt) txt.length, .popupState "idle"])
      else (s, [])
  | .inferOk _, none => (s, [])
  | .inferErr c, some sess =>
      if sess.state = .Transcribing then
        ({ s with
            current := none,
            archive := s.archive ++ [{ sess with state := .Failed, failure := some c }] },
         [.errorOut c, .popupState "idle"])
      else (s, [])
  | .inferErr _, none => (s, [])
  | .abortSession c, some sess =>
      if sess.state.isTerminal then (s, [])
      else
        ({ s with
            current := none,
            archive := s.archive ++ [{ sess with state := .Failed, failure := some c }] },
         [.errorOut c, .popupState "idle"])
  | .abortSession _, none => (s, [])

/-- Run the orchestrator from a given state over a list of events. -/
def orchRunFrom (cfg : OrchConfig) (s : OrchState) : List OEvent → OrchState
  | [] => s
  | e :: rest => orchRunFrom cfg (orchStep cfg s e).1 rest

/-- Run the orchestrator from the initial state. -/
def orchRun (cfg : OrchConfig) (events : List OEvent) : OrchState :=
  orchRunFrom cfg initOrch events

/-- Number of active (non-terminal) sessions present anywhere in an
orchestrator state. -/
def activeSessions (s : OrchState) : ℕ :=
  ((s.current.toList ++ s.archive).filter (fun d => !(SessState.isTerminal d.state))).length

/-! ## Model Store (spec section 4.2)

The Model Store is likewise not among the shipped UI sources; the
definitions below are modelled from the specification's artifact
lifecycle and download protocol. -/

/-- Modelled from the spec: the `DownloadTask` record of section 3 (one
in-flight fetch of a model artifact). -/
structure DownloadTask where
  targetIdentifier : String
  downloadedBytes : ℕ
  totalBytes : ℕ
  cancelRequested : Bool
deriving DecidableEq

/-- Modelled from the spec: Model Store state — the cache (identifiers
whose artifact is present) and the exclusively owned current
DownloadTask, if any. -/
structure StoreState where
  cache : List String
  task : Option DownloadTask
deriving DecidableEq

/-- Modelled from the spec: the supported-model catalog and the size of
each artifact (known once a download starts). -/
structure StoreConfig where
  catalog : List String
  sizeBytes : String → ℕ

/-- Modelled from the spec: events driving the Model Store — an
`ensureAvailable`/`startModelDownload` request, a `cancel()` call, the
arrival of one transfer chunk (with the speed measured over the
trailing window), and a network/disk failure. -/
inductive SEvent where
  | ensure (ident : String)
  | cancelCall
  | chunk (n : ℕ) (speed : ℚ)
  | netFail (cause : String)
deriving DecidableEq

/-- Modelled from the spec: outputs of the Model Store — operation
results, progress updates, and the three terminal events of the
completion report (section 4.2). -/
inductive SOut where
  | started (ident : String)
  | alreadyCachedOut (ident : String)
  | unknownOut (ident : String)
  | inProgressOut (ident : String)
  | noActiveOut
  | cancelAck (ident : String)
  | progressOut (downloaded total : ℕ) (speed : ℚ) (eta : Option ℚ)
  | successOut (ident : String) (downloaded total : ℕ)
  | cancelledOut (ident : String)
  | errorOut (ident cause : String)
deriving DecidableEq

/-- Whether a Model Store output is one of the three terminal events
(`success`, `cancelled`, `error`). -/
def SOut.isTerminal : SOut → Bool
  | .successOut _ _ _ => true
  | .cancelledOut _ => true
  | .errorOut _ _ => true
  | _ => false

/-- Whether a Model Store output reports that a download started. -/
def SOut.isStarted : SOut → Bool
  | .started _ => true
  | _ => false

/-- Modelled from the spec: the derived ETA of the progress report,
`(totalBytes - downloadedBytes) / speed`, unavailable when the speed is
zero. -/
def specEtaSeconds (downloaded total : ℕ) (speed : ℚ) : Option ℚ :=
  if speed = 0 then none
  else some (((total : ℚ) - (downloaded : ℚ)) / speed)

/-- Modelled from the spec: one transition of the Model Store.
`ensure` fails with `ArtifactUnknown` off-catalog, returns
`AlreadyCached` for a present artifact, fails with
`DownloadAlreadyInProgress` while a task is active, and otherwise
creates the single DownloadTask.  `cancel()` returns `NoActiveDownload`
with no state change when no task is active, else sets
`cancelRequested`.  A chunk arrival on a cancel-requested task stops
the transfer and discards the partial bytes (terminal `cancelled`);
otherwise the byte count advances and, on reaching `totalBytes`, the
artifact becomes cached with a terminal `success`.  A failure destroys
the task with a terminal `error`. -/
def storeStep (cfg : StoreConfig) (s : StoreState) (e : SEvent) : StoreState × List SOut :=
  match e with
  | .ensure ident =>
    if ident ∈ cfg.catalog then
      if ident ∈ s.cache then (s, [.alreadyCachedOut ident])
      else
        match s.task with
        | some _ => (s, [.inProgressOut ident])
        | none =>
          ({ s with task := some ⟨ident, 0, cfg.sizeBytes ident, false⟩ },
           [.started ident])
    else (s, [.unknownOut ident])
  | .cancelCall =>
    match s.task with
    | none => (s, [.noActiveOut])
    | some t =>
      ({ s with task := some { t with cancelRequested := true } },
       [.cancelAck t.targetIdentifier])
  | .chunk n speed =>
    match s.task with
    | none => (s, [])
    | some t =>
      if t.cancelRequested then
        ({ s with task := none }, [.cancelledOut t.targetIdentifier])
      else
        let d := min (t.downloadedBytes + n) t.totalBytes
        if d = t.totalBytes then
          ({ cache := t.targetIdentifier :: s.cache, task := none },
           [.progressOut d t.totalBytes speed (specEtaSeconds d t.totalBytes speed),
            .successOut t.targetIdentifier d t.totalBytes])
        else
          ({ s with task := some { t with downloadedBytes := d } },
           [.progressOut d t.totalBytes speed (specEtaSeconds d t.totalBytes speed)])
  | .netFail cause =>
    match s.task with
    | none => (s, [])
    | some t => ({ s with task := none }, [.errorOut t.targetIdentifier cause])

/-- Number of DownloadTask instances existing in a Model Store state. -/
def taskCount (s : StoreState) : ℕ :=
  match s.task with
  | none => 0
  | some _ => 1

/-- Run the Model Store from a given state, collecting all outputs. -/
def storeRunFrom (cfg : StoreConfig) (s : StoreState) : List SEvent → StoreState × List SOut
  | [] => (s, [])
  | e :: rest =>
    let r := storeStep cfg s e
    let rr := storeRunFrom cfg r.1 rest
    (rr.1, r.2 ++ rr.2)

/-- The empty Model Store state: clean cache, no active task. -/
def initStore : StoreState := ⟨[], none⟩

/-- Run the Model Store from the empty state. -/
def storeRun (cfg : StoreConfig) (events : List SEvent) : StoreState × List SOut :=
  storeRunFrom cfg initStore events

/-! ## StatsHeader.tsx — ModelDownloadProgress state handling -/

/-- The `DownloadState` union of StatsHeader.tsx. -/
inductive UiDownloadState where
  | idle
  | downloading
  | completed
  | cancelled
  | error
deriving DecidableEq

/-- Whether a UI download state is terminal for the component
(`completed`, `cancelled` or `error`). -/
def UiDownloadState.isTerminalUi : UiDownloadState → Bool
  | .completed => true
  | .cancelled => true
  | .error => true
  | _ => false

/-- Embedding of `handleCompleteEvent`: the state set in response to a
`download-complete` event (`success` -> completed, `cancelled` ->
cancelled, otherwise error). -/
def handleCompleteEvent (result : DownloadComplete) : UiDownloadState :=
  if result.success then .completed
  else if result.cancelled then .cancelled
  else .error

/-- Embedding of `handleCancel`: it only calls
`api.cancelModelDownload()` and deliberately leaves the component state
unchanged ("wait for the complete event"). -/
def handleCancel (s : UiDownloadState) : UiDownloadState := s

/-- Result of `api.startModelDownload` as consumed by `startDownload`. -/
structure StartResult where
  alreadyCached : Bool
deriving DecidableEq

/-- Embedding of the success path of `startDownload` in
StatsHeader.tsx: an `alreadyCached` result shows the completed state
immediately, otherwise the downloading state; the boolean reports
whether `onStart` was fired. -/
def startDownloadUi (r : StartResult) : UiDownloadState × Bool :=
  if r.alreadyCached then (.completed, false) else (.downloading, true)

/-! ## Theorems -/

/-- For positive seconds the JavaScript remainder by 60 agrees with the
mathematical one. -/
theorem jsMod_pos_eq (q : ℚ) (hq : 0 < q) :
    jsMod q 60 = q - 60 * (⌊q / 60⌋ : ℚ) := by
  unfold jsMod jsTrunc
  have h : (0 : ℚ) ≤ q / 60 := by positivity
  rw [if_pos h]

/-- Floor commutes with division by 60 on the rationals. -/
theorem floor_div_sixty (q : ℚ) : ⌊q / 60⌋ = ⌊q⌋ / 60 := by
  have h0 : (0 : ℚ) < 60 := by norm_num
  have hmod : 0 ≤ ⌊q⌋ % 60 := Int.emod_nonneg ⌊q⌋ (by norm_num)
  have hmodlt : ⌊q⌋ % 60 < 60 := Int.emod_lt_of_pos ⌊q⌋ (by norm_num)
  have hdiv : ⌊q⌋ % 60 + 60 * (⌊q⌋ / 60) = ⌊q⌋ := Int.emod_add_ediv ⌊q⌋ 60
  have hfl : ((⌊q⌋ : ℤ) : ℚ) ≤ q := Int.floor_le q
  have hfl2 : q < ((⌊q⌋ : ℤ) : ℚ) + 1 := Int.lt_floor_add_one q
  rw [Int.floor_eq_iff]
  constructor
  · rw [le_div_iff₀ h0]
    have hle : ((60 * (⌊q⌋ / 60) : ℤ) : ℚ) ≤ ((⌊q⌋ : ℤ) : ℚ) := by
      exact_mod_cast (by omega : (60 * (⌊q⌋ / 60) : ℤ) ≤ ⌊q⌋)
    push_cast at hle ⊢
    linarith
  · rw [div_lt_iff₀ h0]
    have hlt : ((⌊q⌋ + 1 : ℤ) : ℚ) ≤ ((60 * (⌊q⌋ / 60 + 1) : ℤ) : ℚ) := by
      exact_mod_cast (by omega : (⌊q⌋ + 1 : ℤ) ≤ 60 * (⌊q⌋ / 60 + 1))
    push_cast at hlt ⊢
    linarith

/-- Floor of the JavaScript remainder by 60 is the integer remainder of
the floor. -/
theorem floor_jsMod_pos (q : ℚ) (hq : 0 < q) :
    ⌊jsMod q 60⌋ = ⌊q⌋ % 60 := by
  rw [jsMod_pos_eq q hq]
  have h1 : ⌊q - ((60 * ⌊q / 60⌋ : ℤ) : ℚ)⌋ = ⌊q⌋ - 60 * ⌊q / 60⌋ :=
    Int.floor_sub_int q (60 * ⌊q / 60⌋)
  have h2 : q - 60 * (⌊q / 60⌋ : ℚ) = q - ((60 * ⌊q / 60⌋ : ℤ) : ℚ) := by
    push_cast
    ring
  rw [h2, h1, floor_div_sixty, Int.emod_def]

/-- C8.  The derived download ETA equals
`(totalBytes - downloadedBytes) / speed` and is unavailable when the
speed is zero; the presentation renders the speed/ETA row only when
`speedBps > 0`; `formatEta` returns `"--:--"` for every non-positive or
non-finite seconds value and otherwise renders
`floor(seconds/60) : floor(seconds mod 60)` with the seconds part
zero-padded to two digits. -/
theorem eta_derivation_and_formatting :
    (∀ d tot : ℕ, specEtaSeconds d tot 0 = none) ∧
    (∀ (d tot : ℕ) (speed : ℚ), speed ≠ 0 →
      specEtaSeconds d tot speed = some (((tot : ℚ) - (d : ℚ)) / speed)) ∧
    (showsSpeedEtaRow none = false) ∧
    (∀ p : DownloadProgress, showsSpeedEtaRow (some p) = true ↔ 0 < p.speedBps) ∧
    (∀ q : ℚ, q ≤ 0 → formatEta (.fin q) = "--:--") ∧
    (formatEta .nan = "--:--" ∧ formatEta .posInf = "--:--" ∧ formatEta .negInf = "--:--") ∧
    (∀ q : ℚ, 0 < q →
      formatEta (.fin q) = toString ⌊q / 60⌋ ++ ":" ++ padStart2 (toString (⌊q⌋ % 60))) := by
  refine ⟨fun d tot => by simp [specEtaSeconds],
          fun d tot speed hs => by simp [specEtaSeconds, hs],
          rfl,
          fun p => by simp [showsSpeedEtaRow],
          fun q hq => by simp [formatEta, jsLeZero, hq],
          ⟨rfl, rfl, rfl⟩,
          fun q hq => ?_⟩
  have hnle : ¬ q ≤ 0 := not_le.mpr hq
  have hfE : formatEta (.fin q) =
      toString ⌊q / 60⌋ ++ ":" ++ padStart2 (toString ⌊jsMod q 60⌋) := by
    simp [formatEta, jsLeZero, jsIsFinite, hnle]
  rw [hfE, floor_jsMod_pos q hq]

/-- Witness for C8 at concrete inputs. -/
theorem eta_derivation_and_formatting_witness :
    specEtaSeconds 3 10 2 = some ((10 - 3 : ℚ) / 2) ∧
    formatEta (.fin (-5)) = "--:--" ∧
    formatEta (.fin 125) =
      toString ⌊(125 : ℚ) / 60⌋ ++ ":" ++ padStart2 (toString (⌊(125 : ℚ)⌋ % 60)) ∧
    (showsSpeedEtaRow (some ⟨3, 10, 30, 2, .fin (7/2)⟩) = true ↔ (0 : ℚ) < 2) :=
  ⟨by
     have h := eta_derivation_and_formatting.2.1 3 10 2 (by decide)
     simpa using h,
   eta_derivation_and_formatting.2.2.2.2.1 (-5) (by decide),
   eta_derivation_and_formatting.2.2.2.2.2.2 125 (by decide),
   eta_derivation_and_formatting.2.2.2.1 ⟨3, 10, 30, 2, .fin (7/2)⟩⟩

/-- The idle-animation blend always lies in `[0, 1]` because each sine
evaluation lies in `[-1, 1]` and the weights sum to one. -/
theorem idleBlend_bounds (sinF : ℚ → ℚ) (piQ animTime : ℚ) (i : ℕ)
    (hs : ∀ x, -1 ≤ sinF x ∧ sinF x ≤ 1) :
    0 ≤ idleBlend sinF piQ animTime i ∧ idleBlend sinF piQ animTime i ≤ 1 := by
  simp only [idleBlend]
  obtain ⟨ha1, hb1⟩ :=
    hs (animTime * 2.8 + (i : ℚ) / ((N_BANDS : ℚ) - 1) * piQ * 3.0)
  obtain ⟨ha2, hb2⟩ :=
    hs (animTime * 1.5 + (i : ℚ) / ((N_BANDS : ℚ) - 1) * piQ * 5.5 + 1.3)
  obtain ⟨ha3, hb3⟩ :=
    hs (animTime * 4.1 + (i : ℚ) / ((N_BANDS : ℚ) - 1) * piQ * 2.2 - 0.9)
  constructor <;> linarith

/-- C9.  Every displayed band of the spectrum Popup equals
`max(idleFloor, v)` where the idle floor lies in `[0, 0.14]`; hence the
displayed value is at least the received band value, stays within
`[0, 1]` for received values in `[0, 1]`, and the wave excursion of the
upper and lower points never exceeds `MAX_H` around the center line. -/
theorem popup_band_bounds (sinF : ℚ → ℚ) (piQ animTime : ℚ) (i : ℕ) (v : ℚ)
    (hs : ∀ x, -1 ≤ sinF x ∧ sinF x ≤ 1) (hv0 : 0 ≤ v) (hv1 : v ≤ 1) :
    bandValue sinF piQ animTime i v = max (idleFloor sinF piQ animTime i) v ∧
    0 ≤ idleFloor sinF piQ animTime i ∧
    idleFloor sinF piQ animTime i ≤ 14 / 100 ∧
    v ≤ bandValue sinF piQ animTime i v ∧
    0 ≤ bandValue sinF piQ animTime i v ∧
    bandValue sinF piQ animTime i v ≤ 1 ∧
    CY - MAX_H ≤ upperY sinF piQ animTime i v ∧
    upperY sinF piQ animTime i v ≤ CY ∧
    CY ≤ lowerY sinF piQ animTime i v ∧
    lowerY sinF piQ animTime i v ≤ CY + MAX_H := by
  obtain ⟨hb0, hb1⟩ := idleBlend_bounds sinF piQ animTime i hs
  have hf0 : 0 ≤ idleFloor sinF piQ animTime i := by
    simp only [idleFloor]
    linarith
  have hf1 : idleFloor sinF piQ animTime i ≤ 14 / 100 := by
    simp only [idleFloor]
    linarith
  have hband0 : 0 ≤ bandValue sinF piQ animTime i v :=
    le_trans hv0 (le_max_right _ _)
  have hband1 : bandValue sinF piQ animTime i v ≤ 1 :=
    max_le (le_trans hf1 (by norm_num)) hv1
  have hMH : (0 : ℚ) ≤ MAX_H := by norm_num [MAX_H, CY, SVG_H]
  have hprod0 : 0 ≤ bandValue sinF piQ animTime i v * MAX_H :=
    mul_nonneg hband0 hMH
  have hprod1 : bandValue sinF piQ animTime i v * MAX_H ≤ MAX_H := by
    have := mul_le_mul_of_nonneg_right hband1 hMH
    linarith
  refine ⟨rfl, hf0, hf1, le_max_right _ _, hband0, hband1, ?_, ?_, ?_, ?_⟩ <;>
    simp only [upperY, lowerY] <;> linarith

/-- Witness for C9 at a concrete input. -/
theorem popup_band_bounds_witness :
    bandValue (fun _ => 0) 3 0 0 1 =
      max (idleFloor (fun _ => 0) 3 0 0) 1 ∧
    0 ≤ idleFloor (fun _ => 0) (3 : ℚ) 0 0 ∧
    idleFloor (fun _ => 0) (3 : ℚ) 0 0 ≤ 14 / 100 ∧
    (1 : ℚ) ≤ bandValue (fun _ => 0) 3 0 0 1 ∧
    0 ≤ bandValue (fun _ => 0) (3 : ℚ) 0 0 1 ∧
    bandValue (fun _ => 0) (3 : ℚ) 0 0 1 ≤ 1 ∧
    CY - MAX_H ≤ upperY (fun _ => 0) 3 0 0 1 ∧
    upperY (fun _ => 0) (3 : ℚ) 0 0 1 ≤ CY ∧
    CY ≤ lowerY (fun _ => 0) 3 0 0 1 ∧
    lowerY (fun _ => 0) (3 : ℚ) 0 0 1 ≤ CY + MAX_H :=
  popup_band_bounds (fun _ => 0) 3 0 0 1
    (fun _ => ⟨neg_nonpos.mpr zero_le_one, zero_le_one⟩) zero_le_one (le_refl 1)

/-- A left fold appending one string per index equals the seed followed
by the concatenation of all the per-index strings. -/
theorem foldl_append_concat (f : ℕ → String) (l : List ℕ) :
    ∀ init : String,
      l.foldl (fun d i => d ++ f i) init = init ++ concatStrs (l.map f) := by
  induction l with
  | nil => intro init; simp [concatStrs]
  | cons h t ih =>
    intro init
    simp only [List.foldl_cons, List.map_cons, concatStrs]
    rw [ih, String.append_assoc]

/-- C10.  `crPath` returns the empty string for fewer than two points;
for `n ≥ 2` points it is a move-to at the first point followed by
exactly `n - 1` cubic-bezier commands whose endpoints are the
successive input points; `areaPath` appends a line-to, the reversed
lower curve with its move-to stripped, and a closing `Z`. -/
theorem crPath_structure :
    (∀ pts : List (ℚ × ℚ), pts.length < 2 → crPath pts = "") ∧
    (∀ pts : List (ℚ × ℚ), 2 ≤ pts.length →
      crPath pts = moveToStr (pts.getD 0 (0, 0)) ++ concatStrs (bezierSegs pts)) ∧
    (∀ pts : List (ℚ × ℚ), (bezierSegs pts).length = pts.length - 1) ∧
    (∀ (pts : List (ℚ × ℚ)) (i : ℕ), i < pts.length - 1 → ∃ pre,
      (bezierSegs pts).getD i "" =
        pre ++ (toFixed1 (pts.getD (i + 1) (0, 0)).1 ++ " " ++
                toFixed1 (pts.getD (i + 1) (0, 0)).2)) ∧
    (∀ upper lower : List (ℚ × ℚ),
      areaPath upper lower =
        crPath upper ++ " L " ++ toFixed1 (lower.reverse.getD 0 (0, 0)).1 ++ " " ++
          toFixed1 (lower.reverse.getD 0 (0, 0)).2 ++
          dropMoveCmd (crPath lower.reverse) ++ " Z") := by
  refine ⟨fun pts h => by simp [crPath, h], ?_, fun pts => by simp [bezierSegs], ?_, ?_⟩
  · intro pts h
    have hnot : ¬ pts.length < 2 := not_lt.mpr h
    simp only [crPath, hnot, if_false]
    rw [foldl_append_concat]
    rfl
  · intro pts i hi
    have hseg : (bezierSegs pts).getD i "" = bezierSeg pts i := by
      unfold bezierSegs
      have hlen : i < ((List.range (pts.length - 1)).map (bezierSeg pts)).length := by
        simpa using hi
      rw [List.getD_eq_getElem _ _ hlen]
      simp
    refine ⟨" C " ++
      toFixed1 ((pts.getD i (0, 0)).1 +
        ((pts.getD (i + 1) (0, 0)).1 - (pts.getD (i - 1) (0, 0)).1) / 6) ++ " " ++
      toFixed1 ((pts.getD i (0, 0)).2 +
        ((pts.getD (i + 1) (0, 0)).2 - (pts.getD (i - 1) (0, 0)).2) / 6) ++ ", " ++
      toFixed1 ((pts.getD (i + 1) (0, 0)).1 -
        ((pts.getD (min (pts.length - 1) (i + 2)) (0, 0)).1 - (pts.getD i (0, 0)).1) / 6) ++ " " ++
      toFixed1 ((pts.getD (i + 1) (0, 0)).2 -
        ((pts.getD (min (pts.length - 1) (i + 2)) (0, 0)).2 - (pts.getD i (0, 0)).2) / 6) ++ ", ",
      ?_⟩
    rw [hseg]
    simp only [bezierSeg]
    simp [String.append_assoc]
  · intro upper lower
    rfl

/-- Witness for C10 at concrete point lists. -/
theorem crPath_structure_witness :
    crPath [((5 : ℚ), (7 : ℚ))] = "" ∧
    crPath [((0 : ℚ), (0 : ℚ)), ((10 : ℚ), (20 : ℚ))] =
      moveToStr ([((0 : ℚ), (0 : ℚ)), ((10 : ℚ), (20 : ℚ))].getD 0 (0, 0)) ++
        concatStrs (bezierSegs [((0 : ℚ), (0 : ℚ)), ((10 : ℚ), (20 : ℚ))]) ∧
    (bezierSegs [((0 : ℚ), (0 : ℚ)), ((10 : ℚ), (20 : ℚ))]).length =
      [((0 : ℚ), (0 : ℚ)), ((10 : ℚ), (20 : ℚ))].length - 1 ∧
    (∃ pre,
      (bezierSegs [((0 : ℚ), (0 : ℚ)), ((10 : ℚ), (20 : ℚ))]).getD 0 "" =
        pre ++ (toFixed1 (([((0 : ℚ), (0 : ℚ)), ((10 : ℚ), (20 : ℚ))].getD 1 (0, 0)).1) ++ " " ++
                toFixed1 (([((0 : ℚ), (0 : ℚ)), ((10 : ℚ), (20 : ℚ))].getD 1 (0, 0)).2))) :=
  ⟨crPath_structure.1 [((5 : ℚ), (7 : ℚ))] (by decide),
   crPath_structure.2.1 [((0 : ℚ), (0 : ℚ)), ((10 : ℚ), (20 : ℚ))] (by decide),
   crPath_structure.2.2.1 [((0 : ℚ), (0 : ℚ)), ((10 : ℚ), (20 : ℚ))],
   crPath_structure.2.2.2.1 [((0 : ℚ), (0 : ℚ)), ((10 : ℚ), (20 : ℚ))] 0 (by decide)⟩

/-- Every session placed in the archive by a step is terminal. -/
theorem orchStep_archive_terminal (cfg : OrchConfig) (s : OrchState) (e : OEvent)
    (h : ∀ d ∈ s.archive, SessState.isTerminal d.state = true) :
    ∀ d ∈ (orchStep cfg s e).1.archive, SessState.isTerminal d.state = true := by
  cases e <;> cases hc : s.current <;>
    simp only [orchStep, hc] <;>
    (try exact h) <;>
    split <;>
    (try split) <;>
    (try exact h) <;>
    intro d hd <;>
    simp only [List.mem_append, List.mem_singleton] at hd <;>
    rcases hd with hd | hd <;>
    first
      | exact h d hd
      | (subst hd; rfl)

/-- The archive stays all-terminal along any run. -/
theorem orchRunFrom_archive_terminal (cfg : OrchConfig) (events : List OEvent) :
    ∀ s : OrchState, (∀ d ∈ s.archive, SessState.isTerminal d.state = true) →
      ∀ d ∈ (orchRunFrom cfg s events).archive, SessState.isTerminal d.state = true := by
  induction events with
  | nil => intro s h; exact h
  | cons e rest ih =>
    intro s h
    exact ih _ (orchStep_archive_terminal cfg s e h)

/-- A state whose archive is all-terminal has at most one active
session. -/
theorem activeSessions_le_one (s : OrchState)
    (h : ∀ d ∈ s.archive, SessState.isTerminal d.state = true) :
    activeSessions s ≤ 1 := by
  unfold activeSessions
  rw [List.filter_append]
  have h2 : s.archive.filter (fun d => !(SessState.isTerminal d.state)) = [] := by
    rw [List.filter_eq_nil_iff]
    intro d hd
    simp [h d hd]
  rw [h2, List.append_nil]
  calc (s.current.toList.filter (fun d => !(SessState.isTerminal d.state))).length
      ≤ s.current.toList.length := List.length_filter_le _ _
    _ ≤ 1 := by cases s.current <;> simp [Option.toList]

/-- C1.  Single-flight dictation: a chord-down while the orchestrator
is not `Idle` (a current session exists) is a complete no-op — the
state is unchanged and nothing is emitted — and along every sequence of
input events at most one non-terminal DictationSession exists. -/
theorem single_flight_dictation :
    (∀ (cfg : OrchConfig) (t : ℕ) (sess : DictationSession)
        (arch : List DictationSession) (hist : List (String × ℕ × ℕ)) (nid : ℕ),
      orchStep cfg ⟨some sess, arch, hist, nid⟩ (.chordDown t) =
        (⟨some sess, arch, hist, nid⟩, [])) ∧
    (∀ (cfg : OrchConfig) (events : List OEvent),
      activeSessions (orchRun cfg events) ≤ 1) := by
  constructor
  · intro cfg t sess arch hist nid
    rfl
  · intro cfg events
    apply activeSessions_le_one
    apply orchRunFrom_archive_terminal
    intro d hd
    simp [initOrch] at hd

/-- C2.  A chord-up on a recording shorter than the minimum duration
threshold transitions the session directly to `Cancelled`: the audio
buffer is discarded, no transcribe invocation is emitted, and the
history is unchanged. -/
theorem short_recording_cancelled (cfg : OrchConfig) (sess : DictationSession)
    (arch : List DictationSession) (hist : List (String × ℕ × ℕ)) (nid t : ℕ)
    (hrec : sess.state = .Recording)
    (hshort : t - sess.startedAt < cfg.minDurationMs) :
    orchStep cfg ⟨some sess, arch, hist, nid⟩ (.chordUp t) =
      (⟨none, arch ++ [{ sess with state := .Cancelled, audioBuffer := [] }], hist, nid⟩,
       [.popupState "idle"]) ∧
    (∀ b, OOut.invokeTranscribe b ∉
      (orchStep cfg ⟨some sess, arch, hist, nid⟩ (.chordUp t)).2) ∧
    (orchStep cfg ⟨some sess, arch, hist, nid⟩ (.chordUp t)).1.history = hist := by
  have hstep : orchStep cfg ⟨some sess, arch, hist, nid⟩ (.chordUp t) =
      (⟨none, arch ++ [{ sess with state := .Cancelled, audioBuffer := [] }], hist, nid⟩,
       [.popupState "idle"]) := by
    simp [orchStep, hrec, hshort]
  refine ⟨hstep, ?_, ?_⟩
  · intro b
    rw [hstep]
    simp
  · rw [hstep]

/-- Witness for C2 at a concrete short tap. -/
theorem short_recording_cancelled_witness :
    orchStep ⟨300⟩
        ⟨some ⟨0, .Recording, 100, [1], [1], none, none⟩, [], [], 1⟩ (.chordUp 150) =
      (⟨none, [⟨0, .Cancelled, 100, [], [1], none, none⟩], [], 1⟩,
       [.popupState "idle"]) ∧
    (∀ b, OOut.invokeTranscribe b ∉
      (orchStep ⟨300⟩
        ⟨some ⟨0, .Recording, 100, [1], [1], none, none⟩, [], [], 1⟩ (.chordUp 150)).2) ∧
    (orchStep ⟨300⟩
        ⟨some ⟨0, .Recording, 100, [1], [1], none, none⟩, [], [], 1⟩ (.chordUp 150)).1.history = [] :=
  short_recording_cancelled ⟨300⟩ ⟨0, .Recording, 100, [1], [1], none, none⟩
    [] [] 1 150 rfl (by decide)

/-- Each Model Store step emits a terminal event exactly when it
destroys the active DownloadTask, and at most one per step. -/
theorem storeStep_terminal_count (cfg : StoreConfig) (s : StoreState) (e : SEvent) :
    ((storeStep cfg s e).2.filter SOut.isTerminal).length =
      if s.task.isSome = true ∧ (storeStep cfg s e).1.task = none then 1 else 0 := by
  cases e <;> cases ht : s.task <;>
    simp only [storeStep, ht] <;>
    (try split) <;> (try split) <;>
    simp_all [SOut.isTerminal]

/-- One step conserves the started/terminal balance: terminal events
plus surviving tasks equal started events plus prior tasks. -/
theorem storeStep_conservation (cfg : StoreConfig) (s : StoreState) (e : SEvent) :
    ((storeStep cfg s e).2.filter SOut.isTerminal).length +
        taskCount (storeStep cfg s e).1 =
      ((storeStep cfg s e).2.filter SOut.isStarted).length + taskCount s := by
  cases e <;> cases ht : s.task <;>
    simp only [storeStep, ht] <;>
    (try split) <;> (try split) <;>
    simp_all [SOut.isTerminal, SOut.isStarted, taskCount]

/-- The started/terminal balance is conserved along any run. -/
theorem storeRunFrom_conservation (cfg : StoreConfig) (events : List SEvent) :
    ∀ s : StoreState,
      ((storeRunFrom cfg s events).2.filter SOut.isTerminal).length +
          taskCount (storeRunFrom cfg s events).1 =
        ((storeRunFrom cfg s events).2.filter SOut.isStarted).length + taskCount s := by
  induction events with
  | nil => intro s; simp [storeRunFrom]
  | cons e rest ih =>
    intro s
    have hstep := storeStep_conservation cfg s e
    have hrest := ih (storeStep cfg s e).1
    simp only [storeRunFrom, List.filter_append, List.length_append]
    omega

/-- C3.  Each DownloadTask emits exactly one terminal event: a step
emits a terminal event exactly when it destroys the task (so destroyed
tasks account one-for-one for terminal events, and over any run every
started download is balanced by exactly one terminal event or one still
active task); a cancel request arriving after the task already ended is
safely ignored (`NoActiveDownload`, no state change, no second report);
and the download UI changes to a terminal state only through the
`download-complete` handler, never from the cancel call itself. -/
theorem exactly_one_terminal_event :
    (∀ (cfg : StoreConfig) (s : StoreState) (e : SEvent),
      ((storeStep cfg s e).2.filter SOut.isTerminal).length =
        if s.task.isSome = true ∧ (storeStep cfg s e).1.task = none then 1 else 0) ∧
    (∀ (cfg : StoreConfig) (events : List SEvent),
      ((storeRun cfg events).2.filter SOut.isTerminal).length +
          taskCount (storeRun cfg events).1 =
        ((storeRun cfg events).2.filter SOut.isStarted).length) ∧
    (∀ (cfg : StoreConfig) (cache : List String),
      storeStep cfg ⟨cache, none⟩ .cancelCall = (⟨cache, none⟩, [.noActiveOut])) ∧
    (∀ r : DownloadComplete, (handleCompleteEvent r).isTerminalUi = true) ∧
    (∀ u : UiDownloadState, handleCancel u = u) := by
  refine ⟨storeStep_terminal_count, ?_, fun cfg cache => rfl, ?_, fun u => rfl⟩
  · intro cfg events
    have h := storeRunFrom_conservation cfg events initStore
    simpa [storeRun, initStore, taskCount] using h
  · intro r
    unfold handleCompleteEvent
    split
    · rfl
    · split <;> rfl

/-- C4.  While a DownloadTask survives a step it keeps its identity and
its `downloadedBytes` never decreases; a `success` terminal event is
emitted only with `downloadedBytes` equal to `totalBytes`. -/
theorem download_bytes_monotone :
    (∀ (cfg : StoreConfig) (cache : List String) (t : DownloadTask) (e : SEvent)
        (u : DownloadTask),
      (storeStep cfg ⟨cache, some t⟩ e).1.task = some u →
        t.targetIdentifier = u.targetIdentifier ∧ t.totalBytes = u.totalBytes ∧
          t.downloadedBytes ≤ u.downloadedBytes) ∧
    (∀ (cfg : StoreConfig) (s : StoreState) (e : SEvent) (ident : String) (d tot : ℕ),
      SOut.successOut ident d tot ∈ (storeStep cfg s e).2 → d = tot) := by
  constructor
  · intro cfg cache t e u hu
    cases e with
    | ensure ident =>
      simp only [storeStep] at hu
      split at hu
      · split at hu
        · cases hu; exact ⟨rfl, rfl, le_refl _⟩
        · cases hu; exact ⟨rfl, rfl, le_refl _⟩
      · cases hu; exact ⟨rfl, rfl, le_refl _⟩
    | cancelCall =>
      simp only [storeStep] at hu
      cases hu
      exact ⟨rfl, rfl, le_refl _⟩
    | chunk n speed =>
      simp only [storeStep] at hu
      split at hu
      · cases hu
      · split at hu
        · cases hu
        · cases hu
          refine ⟨rfl, rfl, ?_⟩
          simp only []
          omega
    | netFail cause =>
      simp only [storeStep] at hu
      cases hu
  · intro cfg s e ident d tot hmem
    cases e <;> cases ht : s.task <;>
      simp only [storeStep, ht] at hmem <;>
      (try split at hmem) <;> (try split at hmem) <;>
      simp at hmem
    rename_i heq
    obtain ⟨h1, h2, h3⟩ := hmem
    rw [h2, h3]
    exact heq

/-- Witness for C4 at a concrete task and chunk. -/
theorem download_bytes_monotone_witness :
    ((DownloadTask.mk "small" 5 10 false).targetIdentifier =
        (DownloadTask.mk "small" 7 10 false).targetIdentifier ∧
      (DownloadTask.mk "small" 5 10 false).totalBytes =
        (DownloadTask.mk "small" 7 10 false).totalBytes ∧
      (DownloadTask.mk "small" 5 10 false).downloadedBytes ≤
        (DownloadTask.mk "small" 7 10 false).downloadedBytes) ∧
    (10 : ℕ) = 10 :=
  ⟨download_bytes_monotone.1 ⟨["small"], fun _ => 10⟩ [] ⟨"small", 5, 10, false⟩
      (.chunk 2 1) ⟨"small", 7, 10, false⟩ rfl,
   download_bytes_monotone.2 ⟨["small"], fun _ => 10⟩ ⟨[], some ⟨"small", 5, 10, false⟩⟩
      (.chunk 5 1) "small" 10 10 (by decide)⟩

/-- C5.  `ensureAvailable`/`startModelDownload` for a cached identifier
returns `AlreadyCached` with no state change and creates no
DownloadTask (hence calling it twice is the same no-op); a `success`
terminal event puts the identifier into the cache, so re-invoking
immediately after a successful completion also returns `AlreadyCached`;
and the UI's `startDownload` shows the completed state without firing
`onStart` on an `alreadyCached` result. -/
theorem ensure_idempotent_cached :
    (∀ (cfg : StoreConfig) (s : StoreState) (ident : String),
      ident ∈ cfg.catalog → ident ∈ s.cache →
        storeStep cfg s (.ensure ident) = (s, [.alreadyCachedOut ident])) ∧
    (∀ (cfg : StoreConfig) (s : StoreState) (e : SEvent) (ident : String) (d tot : ℕ),
      SOut.successOut ident d tot ∈ (storeStep cfg s e).2 →
        ident ∈ (storeStep cfg s e).1.cache) ∧
    (∀ (cfg : StoreConfig) (s : StoreState) (e : SEvent) (ident : String) (d tot : ℕ),
      ident ∈ cfg.catalog →
      SOut.successOut ident d tot ∈ (storeStep cfg s e).2 →
        storeStep cfg (storeStep cfg s e).1 (.ensure ident) =
          ((storeStep cfg s e).1, [.alreadyCachedOut ident])) ∧
    (startDownloadUi ⟨true⟩ = (.completed, false)) := by
  have hcached : ∀ (cfg : StoreConfig) (s : StoreState) (ident : String),
      ident ∈ cfg.catalog → ident ∈ s.cache →
        storeStep cfg s (.ensure ident) = (s, [.alreadyCachedOut ident]) := by
    intro cfg s ident h1 h2
    simp only [storeStep]
    rw [if_pos h1, if_pos h2]
  have hsucc : ∀ (cfg : StoreConfig) (s : StoreState) (e : SEvent) (ident : String)
      (d tot : ℕ), SOut.successOut ident d tot ∈ (storeStep cfg s e).2 →
        ident ∈ (storeStep cfg s e).1.cache := by
    intro cfg s e ident d tot hmem
    cases e <;> cases ht : s.task <;>
      simp only [storeStep, ht] at hmem ⊢ <;>
      (try split at hmem) <;> (try split at hmem) <;>
      simp_all
  refine ⟨hcached, hsucc, ?_, rfl⟩
  intro cfg s e ident d tot hcat hmem
  exact hcached cfg _ ident hcat (hsucc cfg s e ident d tot hmem)

/-- Witness for C5 at a concrete cached identifier and a concrete
successful completion. -/
theorem ensure_idempotent_cached_witness :
    storeStep ⟨["small"], fun _ => 10⟩ ⟨["small"], none⟩ (.ensure "small") =
      (⟨["small"], none⟩, [.alreadyCachedOut "small"]) ∧
    "small" ∈ (storeStep ⟨["small"], fun _ => 10⟩ ⟨[], some ⟨"small", 5, 10, false⟩⟩
        (.chunk 5 1)).1.cache ∧
    storeStep ⟨["small"], fun _ => 10⟩
        (storeStep ⟨["small"], fun _ => 10⟩ ⟨[], some ⟨"small", 5, 10, false⟩⟩
          (.chunk 5 1)).1 (.ensure "small") =
      ((storeStep ⟨["small"], fun _ => 10⟩ ⟨[], some ⟨"small", 5, 10, false⟩⟩
          (.chunk 5 1)).1, [.alreadyCachedOut "small"]) :=
  ⟨ensure_idempotent_cached.1 ⟨["small"], fun _ => 10⟩ ⟨["small"], none⟩ "small"
      (by decide) (by decide),
   ensure_idempotent_cached.2.1 ⟨["small"], fun _ => 10⟩ ⟨[], some ⟨"small", 5, 10, false⟩⟩
      (.chunk 5 1) "small" 10 10 (by decide),
   ensure_idempotent_cached.2.2.1 ⟨["small"], fun _ => 10⟩ ⟨[], some ⟨"small", 5, 10, false⟩⟩
      (.chunk 5 1) "small" 10 10 (by decide) (by decide)⟩

/-- C6.  At most one download is active system-wide: a request to start
a download for an uncached catalog model while a task is active fails
with `DownloadAlreadyInProgress` and changes nothing, and every
reachable Model Store state holds at most one DownloadTask instance. -/
theorem single_download_guard :
    (∀ (cfg : StoreConfig) (cache : List String) (t : DownloadTask) (ident : String),
      ident ∈ cfg.catalog → ident ∉ cache →
        storeStep cfg ⟨cache, some t⟩ (.ensure ident) =
          (⟨cache, some t⟩, [.inProgressOut ident])) ∧
    (∀ s : StoreState, taskCount s ≤ 1) ∧
    (∀ (cfg : StoreConfig) (events : List SEvent),
      taskCount (storeRun cfg events).1 ≤ 1) := by
  refine ⟨?_, ?_, ?_⟩
  · intro cfg cache t ident h1 h2
    simp only [storeStep]
    rw [if_pos h1, if_neg h2]
  · intro s
    cases h : s.task <;> simp [taskCount, h]
  · intro cfg events
    cases h : (storeRun cfg events).1.task <;> simp [taskCount, h]

/-- Witness for C6: a second start request during an active download. -/
theorem single_download_guard_witness :
    storeStep ⟨["small", "base"], fun _ => 10⟩ ⟨[], some ⟨"base", 3, 10, false⟩⟩
        (.ensure "small") =
      (⟨[], some ⟨"base", 3, 10, false⟩⟩, [.inProgressOut "small"]) ∧
    taskCount ⟨[], some ⟨"base", 3, 10, false⟩⟩ ≤ 1 :=
  ⟨single_download_guard.1 ⟨["small", "base"], fun _ => 10⟩ [] ⟨"base", 3, 10, false⟩
      "small" (by decide) (by decide),
   single_download_guard.2.1 ⟨[], some ⟨"base", 3, 10, false⟩⟩⟩

/-- C7.  `cancel()` with no active DownloadTask returns
`NoActiveDownload` and changes nothing; with an active task it sets
`cancelRequested` and returns `Cancelled`; the transfer then stops at
the next chunk boundary, discarding the partial bytes — the cache is
untouched, so no partial artifact is marked present. -/
theorem cancel_download_semantics :
    (∀ (cfg : StoreConfig) (cache : List String),
      storeStep cfg ⟨cache, none⟩ .cancelCall = (⟨cache, none⟩, [.noActiveOut])) ∧
    (∀ (cfg : StoreConfig) (cache : List String) (t : DownloadTask),
      storeStep cfg ⟨cache, some t⟩ .cancelCall =
        (⟨cache, some { t with cancelRequested := true }⟩,
         [.cancelAck t.targetIdentifier])) ∧
    (∀ (cfg : StoreConfig) (cache : List String) (ident : String) (d tot n : ℕ)
        (speed : ℚ),
      storeStep cfg ⟨cache, some ⟨ident, d, tot, true⟩⟩ (.chunk n speed) =
        (⟨cache, none⟩, [.cancelledOut ident])) :=
  ⟨fun _ _ => rfl, fun _ _ _ => rfl, fun _ _ _ _ _ _ _ => rfl⟩

end VoiceFlow
